import Mathlib

/-!
# Verification of the `coverage` package (multi-pod Go coverage aggregation)

Shallow embedding of the repository's core logic:

* `calculateTotalCoverage` (src/handlers.go): parses the textual output of the
  external percent tool and averages the per-package percentages.  Go `float64`
  arithmetic is modelled with exact rationals (`ℚ`); on the inputs considered
  here every operation is exact, so the models agree.
* `requestOtherProfileLoop` / `resetOtherProfileLoop` (src/coverage.go):
  the peer-collection and reset-broadcast polling loops.  The network and the
  wall clock are modelled by a finite list of events, each carrying the elapsed
  time (in nanoseconds, as Go durations) observed at the start of its loop
  iteration together with the transport outcome.  `none` means the simulated
  event list was exhausted before the loop decided (in the real program time
  advances without bound, so the budget check eventually fires).
* the HTTP handlers (src/handlers.go): modelled as pure functions from request
  data and step outcomes to a trace recording the response status, headers,
  body and which local side effects ran.
-/

namespace Coverage

/-! ## Time budgets (src/coverage.go lines 111-112, 195-196), in nanoseconds -/

def reqTimeout : Nat := 3 * 1000000000

def allReqTimeout : Nat := 15 * 1000000000

/-! ## Network events observed by the polling loops

One event per loop iteration that reaches `http.DefaultClient.Do`:
either the transport fails (connection error or per-request timeout), or a
response arrives carrying the `x-hostname` and `x-filename` headers (an unset
header reads as `""`, per Go `Header.Get`) and a binary body. -/

inductive NetEvent where
  | failure (msg : String)
  | response (host fname : String) (body : List Nat)
deriving DecidableEq, Repr

def NetEvent.isResponse : NetEvent → Bool
  | .failure _ => false
  | .response _ _ _ => true

/-- The responder identity the loop reads from the `x-hostname` header. -/
def NetEvent.respHost : NetEvent → String
  | .failure _ => ""
  | .response h _ _ => h

/-- Errors returned by the loops: the overall-budget timeout
(`"requests timeout exceeded"`) is a distinct constructor from transport
failures (`"failed to perform request: %w"`) and from failures of the
artifact write (`"failed to write response to file: %w"`). -/
inductive CovError where
  | timeout
  | transport (msg : String)
  | writeFailure (msg : String)
deriving DecidableEq, Repr

/-- Whether a response carries a usable artifact filename in `x-filename`.
A genuine peer response does (`CovBinProfileHandler` puts the `covcounters.*`
name there); the Self-Exclusion Guard's short-circuit response sets no
headers, so its filename reads as `""`. -/
def NetEvent.fnameOk : NetEvent → Bool
  | .failure _ => true
  | .response _ f _ => f != ""

/-! ## The scratch directory

`write` (src/coverage.go lines 168-189) creates a fresh subdirectory
(`os.MkdirTemp(parentDir, dirName)`) under the parent scratch directory,
writes a metadata dump into it (`coverage.WriteMetaDir`) and then creates the
counter file `fileName` and writes the transported body into it. -/

structure Subdir where
  host : String
  counterFile : String
  body : List Nat
  hasMeta : Bool
deriving DecidableEq, Repr

/-- The error of `os.Create` aimed at the subdirectory itself, as wrapped by
`write` (`"error creating file: %v"`). -/
def createOnDirErr : String := "error creating file: is a directory"

/-- `write`: with `fileName = ""` — the self-routed case, where the guard's
response carries no `x-filename` header — `filepath.Join(tmpCov, "")` drops
the empty element, so `os.Create` targets the just-created subdirectory
itself and fails, and `write` returns that error (the metadata dump has
already happened by then).  With a non-empty `fileName` the subdirectory ends
up holding the metadata dump and the one counter file.  Other I/O failures
(unwritable parent, metadata dump failure) are outside the model: the
contract grants a writable scratch directory. -/
def write (p : List Nat) (scratch : List Subdir) (dirName fileName : String) :
    Except String (List Subdir) :=
  if fileName = "" then .error createOnDirErr
  else .ok (scratch ++ [⟨dirName, fileName, p, true⟩])

/-- State of one collection operation: the `hosts` dedup set (kept as a
duplicate-free list, insertion order) and the scratch directory contents. -/
structure CollectState where
  seenHosts : List String
  scratch : List Subdir
deriving DecidableEq, Repr

/-! ## requestOtherProfile (src/coverage.go lines 109-164)

The loop runs while `len(hosts) < numberPods`; each iteration first checks the
overall budget, then performs one request; a transport failure aborts with an
error; a response from an already-seen host is skipped; otherwise the host is
recorded and its artifact written. -/

def requestOtherProfileLoop (numberPods : Int) :
    List (Nat × NetEvent) → CollectState → Option (Except CovError CollectState)
  | events, st =>
    if (st.seenHosts.length : Int) < numberPods then
      match events with
      | [] => none
      | (t, ev) :: rest =>
        if t > allReqTimeout then some (.error .timeout)
        else
          match ev with
          | .failure msg => some (.error (.transport msg))
          | .response host fname body =>
            if host ∈ st.seenHosts then
              requestOtherProfileLoop numberPods rest st
            else
              match write body st.scratch host fname with
              | .error e => some (.error (.writeFailure e))
              | .ok scratch' =>
                requestOtherProfileLoop numberPods rest
                  ⟨st.seenHosts ++ [host], scratch'⟩
    else some (.ok st)

/-- `requestOtherProfile`: the seen set is seeded with the local identity;
`scratch0` is what the caller's parent directory already holds (the percent
handler first calls `writeBinCoverage`, which leaves one subdirectory for the
local identity). -/
def requestOtherProfile (numberPods : Int) (localId : String)
    (scratch0 : List Subdir) (events : List (Nat × NetEvent)) :
    Option (Except CovError CollectState) :=
  requestOtherProfileLoop numberPods events ⟨[localId], scratch0⟩

/-! ## resetOtherProfile (src/coverage.go lines 193-234): same discipline,
no artifact persistence. -/

def resetOtherProfileLoop (numberPods : Int) :
    List (Nat × NetEvent) → List String → Option (Except CovError (List String))
  | events, hosts =>
    if (hosts.length : Int) < numberPods then
      match events with
      | [] => none
      | (t, ev) :: rest =>
        if t > allReqTimeout then some (.error .timeout)
        else
          match ev with
          | .failure msg => some (.error (.transport msg))
          | .response host _ _ =>
            if host ∈ hosts then
              resetOtherProfileLoop numberPods rest hosts
            else
              resetOtherProfileLoop numberPods rest (hosts ++ [host])
    else some (.ok hosts)

def resetOtherProfile (numberPods : Int) (localId : String)
    (events : List (Nat × NetEvent)) : Option (Except CovError (List String)) :=
  resetOtherProfileLoop numberPods events [localId]

/-! ## SetNumberPods (src/coverage.go lines 71-73): stores the argument
unchanged; no validation of any kind. -/

def setNumberPods (n : Int) : Int := n

/-! ## Identity resolution (src/coverage.go lines 77-83)

`os.Hostname()` either succeeds with a name or fails, in which case a fallback
`generated-hostname-<rand.Int()>` is synthesized. `rand.Int` returns a
non-negative pseudo-random integer, modelled as a `Nat` parameter.  The value
is computed once, at package initialization, into an immutable variable. -/

def resolveHostname (osResult : Option String) (randVal : Nat) : String :=
  match osResult with
  | some h => h
  | none => "generated-hostname-" ++ toString randVal

/-- The `generated-hostname-<integer>` pattern. -/
def isGeneratedHostname (s : String) : Prop :=
  ∃ n : Nat, s = "generated-hostname-" ++ toString n

/-- A read of the package-level `hostname` variable: it returns the stored
value, which is fixed at initialization. -/
def readHostnameVar (v : String) : String := v

/-! ## String primitives

Kernel-computable models of the Go string functions the aggregator uses.
`goSplit` is `strings.Split`: split around each non-overlapping instance of
the (non-empty) separator, scanning left to right.  `goTrim` is
`strings.TrimSpace` restricted to ASCII whitespace (the inputs at hand contain
no Unicode spaces). -/

def goSplitAux (sep : List Char) : Nat → List Char → List Char → List (List Char)
  | _, [], acc => [acc.reverse]
  | 0, cs, acc => [acc.reverse ++ cs]
  | fuel + 1, c :: rest, acc =>
    if sep.isPrefixOf (c :: rest) then
      acc.reverse :: goSplitAux sep fuel (List.drop sep.length (c :: rest)) []
    else
      goSplitAux sep fuel rest (c :: acc)

def goSplit (s sep : String) : List String :=
  (goSplitAux sep.data s.data.length s.data []).map (fun l => ⟨l⟩)

def isGoSpace (c : Char) : Bool :=
  c = ' ' ∨ c = '\t' ∨ c = '\n' ∨ c = '\r' ∨ c = '\x0b' ∨ c = '\x0c'

def goTrim (s : String) : String :=
  ⟨(((s.data.dropWhile isGoSpace).reverse.dropWhile isGoSpace).reverse)⟩

/-! ## calculateTotalCoverage (src/handlers.go lines 132-177)

`bufio.Scanner` with the default split yields the input's lines: split on
`'\n'`, no trailing empty line when the input ends with a newline, and a
trailing `'\r'` is stripped from each line. -/

def dropTrailingCR (l : String) : String :=
  match l.data.getLast? with
  | some c => if c = '\r' then ⟨l.data.dropLast⟩ else l
  | none => l

def goLines (s : String) : List String :=
  let parts := goSplit s "\n"
  let parts := match parts.getLast? with
    | some "" => parts.dropLast
    | _ => parts
  parts.map dropTrailingCR

/-- Decimal digit run value. -/
def digitsVal (cs : List Char) : Nat :=
  cs.foldl (fun a c => 10 * a + (c.toNat - 48)) 0

/-- Parse the exponent suffix after the mantissa: empty input means exponent
zero; `(e|E)[+-]digits` gives the signed exponent; anything else is a syntax
error (`none`). -/
def parseExpSuffix : List Char → Option (Bool × Nat)
  | [] => some (false, 0)
  | c :: r =>
    if c = 'e' ∨ c = 'E' then
      let signed : Bool × List Char :=
        match r with
        | '-' :: d => (true, d)
        | '+' :: d => (false, d)
        | _ => (false, r)
      let ds := signed.2.takeWhile Char.isDigit
      if ds.isEmpty ∨ ¬ (signed.2.dropWhile Char.isDigit).isEmpty then none
      else some (signed.1, digitsVal ds)
    else none

/-- `strconv.ParseFloat(s, 64)`, modelled exactly over `ℚ` on the plain
decimal format `[+-]digits[.digits][(e|E)[+-]digits]` with at least one
mantissa digit (Go additionally accepts `inf`/`nan`, hexadecimal floats and
digit-separating underscores; those inputs do not occur here). -/
def parseGoFloat (s : String) : Option ℚ :=
  let signed : Bool × List Char :=
    match s.data with
    | '-' :: r => (true, r)
    | '+' :: r => (false, r)
    | _ => (false, s.data)
  let ip := signed.2.takeWhile Char.isDigit
  let rest1 := signed.2.dropWhile Char.isDigit
  let fracState : List Char × List Char :=
    match rest1 with
    | '.' :: r => (r.takeWhile Char.isDigit, r.dropWhile Char.isDigit)
    | _ => ([], rest1)
  let hasDot : Bool := match rest1 with
    | '.' :: _ => true
    | _ => false
  if ip.isEmpty ∧ (¬ hasDot ∨ fracState.1.isEmpty) then none
  else
    let fp := fracState.1
    let mant : ℚ :=
      ((digitsVal ip * 10 ^ fp.length + digitsVal fp : ℕ) : ℚ) / ((10 ^ fp.length : ℕ) : ℚ)
    match parseExpSuffix fracState.2 with
    | none => none
    | some (eneg, e) =>
      let v := if eneg then mant / ((10 ^ e : ℕ) : ℚ) else mant * ((10 ^ e : ℕ) : ℚ)
      some (if signed.1 then -v else v)

def noDataMsg : String := "no coverage data found in the output"

def parseErrMsg (token : String) : String :=
  "failed to parse coverage value: " ++ token

/-- Whether `strings.Contains(line, "coverage:")` holds (the separator is
non-empty, so containment is exactly "splitting yields at least two parts"). -/
def hasCoverageMarker (line : String) : Bool :=
  2 ≤ (goSplit line "coverage:").length

/-- The percentage token of a line: `TrimSpace(parts[1])`, then the part
before the first `%`, trimmed again. -/
def coverageToken (line : String) : String :=
  let parts := goSplit line "coverage:"
  let coveragePart := goTrim ((parts.get? 1).getD "")
  goTrim ((goSplit coveragePart "%").headD "")

/-- The number of contributing units of a line: non-empty trimmed
tab-separated tokens of `parts[0]`. -/
def lineUnits (line : String) : Nat :=
  let parts := goSplit line "coverage:"
  (((goSplit (parts.headD "") "\t").map goTrim).filter (· ≠ "")).length

/-- One scanner iteration of `calculateTotalCoverage`'s loop, threading the
`(totalCoverage, packageCount)` accumulator. -/
def processLine (acc : ℚ × Nat) (line : String) : Except String (ℚ × Nat) :=
  let parts := goSplit line "coverage:"
  if 2 ≤ parts.length then
    if parts.length ≠ 2 then .ok acc
    else
      match parseGoFloat (coverageToken line) with
      | none => .error (parseErrMsg (coverageToken line))
      | some v => .ok (acc.1 + v, acc.2 + lineUnits line)
  else .ok acc

def calculateTotalCoverage (output : String) : Except String ℚ :=
  match (goLines output).foldlM processLine ((0 : ℚ), (0 : Nat)) with
  | .error e => .error e
  | .ok (total, count) =>
    if count = 0 then .error noDataMsg
    else .ok (total / (count : ℚ))

/-- A line contributes iff it contains the marker exactly once (the code
silently skips a line with two or more markers). -/
def contributingLine (l : String) : Bool :=
  (goSplit l "coverage:").length == 2

/-- The lines of the input that contribute. -/
def coverageLines (output : String) : List String :=
  (goLines output).filter contributingLine

def lineValue (l : String) : Option ℚ :=
  parseGoFloat (coverageToken l)

/-- Specification-side list of parsed percentages, one per contributing line:
`some` iff every contributing line's token parses. -/
def valuesOfLines : List String → Option (List ℚ)
  | [] => some []
  | l :: rest =>
    if contributingLine l then
      match lineValue l, valuesOfLines rest with
      | some v, some vs => some (v :: vs)
      | _, _ => none
    else valuesOfLines rest

def coverageValues (output : String) : Option (List ℚ) :=
  valuesOfLines (goLines output)

/-- Specification-side total unit count. -/
def unitsOfLines : List String → Nat
  | [] => 0
  | l :: rest => (if contributingLine l then lineUnits l else 0) + unitsOfLines rest

def coverageUnits (output : String) : Nat :=
  unitsOfLines (goLines output)

/-- The identities carried by a list of simulated events. -/
def eventHosts (events : List (Nat × NetEvent)) : List String :=
  events.map (fun e => e.2.respHost)

/-! ## CovResetHandler (src/handlers.go lines 180-199)

The trace records the response status (the first `WriteHeader`, or the
implicit 200 of the first `Write`), the body, and which local side effects
ran: `cleared` is whether `coverage.ClearCounters()` was invoked,
`broadcasted` whether `resetOtherProfile` was invoked.  The outcomes of those
two collaborator calls are inputs (`clearErr`, `broadcastErr`). -/

structure ResetTrace where
  status : Nat
  body : String
  cleared : Bool
  broadcasted : Bool
deriving DecidableEq, Repr

def covResetHandler (localId reqHost : String) (clearErr : Option String)
    (broadcastErr : Option CovError) : ResetTrace :=
  if reqHost = localId then ⟨200, "", false, false⟩
  else
    match clearErr with
    | some _ => ⟨500, "", true, false⟩
    | none =>
      match broadcastErr with
      | some _ => ⟨500, "", true, true⟩
      | none => ⟨200, "Coverage counters have been reset", true, true⟩

/-! ## CovBinProfileHandler (src/handlers.go lines 257-310)

Response headers are read back with Go `Header.Get` semantics: an unset
header is the empty string.  `attemptedDump` is whether the handler entered
the local-dump path at all (temp directory creation onward); `dumped` whether
the counters were actually written.  `localDump` is the outcome of the local
dump: `none` for any local I/O failure, `some files` for the dumped
directory listing (file name, contents). -/

structure ProfileTrace where
  status : Nat
  hostHeader : String
  fnameHeader : String
  body : List Nat
  attemptedDump : Bool
  dumped : Bool
deriving DecidableEq, Repr

def covBinProfileHandler (localId reqHost : String)
    (localDump : Option (List (String × List Nat))) : ProfileTrace :=
  if reqHost = localId then ⟨200, "", "", [], false, false⟩
  else
    match localDump with
    | none => ⟨500, "", "", [], true, false⟩
    | some files =>
      let covFiles := files.filter (fun f => "covcounters".isPrefixOf f.1)
      match covFiles with
      | [] => ⟨200, "", "", [], true, true⟩
      | (n, d) :: rest =>
        ⟨200, localId, n, d ++ (rest.map Prod.snd).flatten, true, true⟩

/-! ## CovPercentHandler (src/handlers.go lines 93-128)

The pipeline steps are inputs: the outcome of `writeBinCoverage`, and the
outcomes of `requestOtherProfile`, `mergeProfiles` and the external percent
tool as functions of the directory they are handed.  The aggregation step is
the real `calculateTotalCoverage` above.  Go `ResponseWriter` semantics: the
first `WriteHeader` fixes the status; later `WriteHeader` calls are no-ops; a
`Write` with no prior `WriteHeader` sends 200.  On `writeBinCoverage` failure
the returned directory is the zero value `""`.  The trace records which
pipeline steps were invoked; `body` is the aggregate percentage written, if
any. -/

structure PercentTrace where
  status : Nat
  body : Option ℚ
  ranCollect : Bool
  ranMerge : Bool
  ranPercent : Bool
  ranAggregate : Bool
deriving DecidableEq, Repr

/-- `w.WriteHeader code`: only the first call takes effect. -/
def writeHeader (cur : Option Nat) (code : Nat) : Option Nat :=
  match cur with
  | some c => some c
  | none => some code

def covPercentHandler (writeBin : Except String String)
    (collect : String → Option CovError)
    (merge : String → Except String String)
    (percent : String → Except String String) : PercentTrace :=
  let dirSt : String × Option Nat :=
    match writeBin with
    | .ok d => (d, none)
    | .error _ => ("", writeHeader none 500)
  let st1 : Option Nat :=
    match collect dirSt.1 with
    | some _ => writeHeader dirSt.2 500
    | none => dirSt.2
  let mergeSt : String × Option Nat :=
    match merge dirSt.1 with
    | .ok d => (d, st1)
    | .error _ => ("", writeHeader st1 500)
  match percent mergeSt.1 with
  | .error _ =>
    ⟨(writeHeader mergeSt.2 500).getD 200, none, true, true, true, false⟩
  | .ok out =>
    match calculateTotalCoverage out with
    | .error _ =>
      ⟨(writeHeader mergeSt.2 500).getD 200, none, true, true, true, true⟩
    | .ok v =>
      ⟨mergeSt.2.getD 200, some v, true, true, true, true⟩

/-! ## Unfolding lemmas for the polling loops -/

theorem requestLoop_done (N : Int) (events : List (Nat × NetEvent))
    (st : CollectState) (h : ¬ (st.seenHosts.length : Int) < N) :
    requestOtherProfileLoop N events st = some (.ok st) := by
  rw [requestOtherProfileLoop.eq_def]
  simp [h]

theorem requestLoop_timeout (N : Int) (t : Nat) (ev : NetEvent)
    (rest : List (Nat × NetEvent)) (st : CollectState)
    (hlt : (st.seenHosts.length : Int) < N) (ht : allReqTimeout < t) :
    requestOtherProfileLoop N ((t, ev) :: rest) st = some (.error .timeout) := by
  rw [requestOtherProfileLoop.eq_def]
  simp [hlt, ht]

theorem requestLoop_fail (N : Int) (t : Nat) (msg : String)
    (rest : List (Nat × NetEvent)) (st : CollectState)
    (hlt : (st.seenHosts.length : Int) < N) (ht : t ≤ allReqTimeout) :
    requestOtherProfileLoop N ((t, .failure msg) :: rest) st =
      some (.error (.transport msg)) := by
  rw [requestOtherProfileLoop.eq_def]
  simp [hlt, Nat.not_lt.mpr ht]

theorem requestLoop_dup (N : Int) (t : Nat) (h f : String) (b : List Nat)
    (rest : List (Nat × NetEvent)) (st : CollectState)
    (hlt : (st.seenHosts.length : Int) < N) (ht : t ≤ allReqTimeout)
    (hmem : h ∈ st.seenHosts) :
    requestOtherProfileLoop N ((t, .response h f b) :: rest) st =
      requestOtherProfileLoop N rest st := by
  rw [requestOtherProfileLoop.eq_def]
  simp [hlt, Nat.not_lt.mpr ht, hmem]

theorem requestLoop_new (N : Int) (t : Nat) (h f : String) (b : List Nat)
    (rest : List (Nat × NetEvent)) (st : CollectState)
    (hlt : (st.seenHosts.length : Int) < N) (ht : t ≤ allReqTimeout)
    (hmem : h ∉ st.seenHosts) (hf : f ≠ "") :
    requestOtherProfileLoop N ((t, .response h f b) :: rest) st =
      requestOtherProfileLoop N rest
        ⟨st.seenHosts ++ [h], st.scratch ++ [⟨h, f, b, true⟩]⟩ := by
  rw [requestOtherProfileLoop.eq_def]
  simp [hlt, Nat.not_lt.mpr ht, hmem, write, hf]

theorem requestLoop_write_fail (N : Int) (t : Nat) (h : String) (b : List Nat)
    (rest : List (Nat × NetEvent)) (st : CollectState)
    (hlt : (st.seenHosts.length : Int) < N) (ht : t ≤ allReqTimeout)
    (hmem : h ∉ st.seenHosts) :
    requestOtherProfileLoop N ((t, .response h "" b) :: rest) st =
      some (.error (.writeFailure createOnDirErr)) := by
  rw [requestOtherProfileLoop.eq_def]
  simp [hlt, Nat.not_lt.mpr ht, hmem, write]

theorem resetLoop_done (N : Int) (events : List (Nat × NetEvent))
    (hosts : List String) (h : ¬ (hosts.length : Int) < N) :
    resetOtherProfileLoop N events hosts = some (.ok hosts) := by
  rw [resetOtherProfileLoop.eq_def]
  simp [h]

theorem resetLoop_timeout (N : Int) (t : Nat) (ev : NetEvent)
    (rest : List (Nat × NetEvent)) (hosts : List String)
    (hlt : (hosts.length : Int) < N) (ht : allReqTimeout < t) :
    resetOtherProfileLoop N ((t, ev) :: rest) hosts = some (.error .timeout) := by
  rw [resetOtherProfileLoop.eq_def]
  simp [hlt, ht]

theorem resetLoop_fail (N : Int) (t : Nat) (msg : String)
    (rest : List (Nat × NetEvent)) (hosts : List String)
    (hlt : (hosts.length : Int) < N) (ht : t ≤ allReqTimeout) :
    resetOtherProfileLoop N ((t, .failure msg) :: rest) hosts =
      some (.error (.transport msg)) := by
  rw [resetOtherProfileLoop.eq_def]
  simp [hlt, Nat.not_lt.mpr ht]

theorem resetLoop_dup (N : Int) (t : Nat) (h f : String) (b : List Nat)
    (rest : List (Nat × NetEvent)) (hosts : List String)
    (hlt : (hosts.length : Int) < N) (ht : t ≤ allReqTimeout)
    (hmem : h ∈ hosts) :
    resetOtherProfileLoop N ((t, .response h f b) :: rest) hosts =
      resetOtherProfileLoop N rest hosts := by
  rw [resetOtherProfileLoop.eq_def]
  simp [hlt, Nat.not_lt.mpr ht, hmem]

theorem resetLoop_new (N : Int) (t : Nat) (h f : String) (b : List Nat)
    (rest : List (Nat × NetEvent)) (hosts : List String)
    (hlt : (hosts.length : Int) < N) (ht : t ≤ allReqTimeout)
    (hmem : h ∉ hosts) :
    resetOtherProfileLoop N ((t, .response h f b) :: rest) hosts =
      resetOtherProfileLoop N rest (hosts ++ [h]) := by
  rw [resetOtherProfileLoop.eq_def]
  simp [hlt, Nat.not_lt.mpr ht, hmem]

/-! ## Behaviour of the scanner fold of `calculateTotalCoverage` -/

theorem processLine_skip (acc : ℚ × Nat) (l : String)
    (hc : contributingLine l = false) : processLine acc l = .ok acc := by
  unfold processLine
  by_cases h2 : 2 ≤ (goSplit l "coverage:").length
  · have hne : (goSplit l "coverage:").length ≠ 2 := by
      simpa [contributingLine] using hc
    simp [h2, hne]
  · simp [h2]

theorem processLine_contrib (acc : ℚ × Nat) (l : String) (v : ℚ)
    (hc : contributingLine l = true) (hv : lineValue l = some v) :
    processLine acc l = .ok (acc.1 + v, acc.2 + lineUnits l) := by
  have h2 : (goSplit l "coverage:").length = 2 := by
    simpa [contributingLine] using hc
  have hv' : parseGoFloat (coverageToken l) = some v := hv
  unfold processLine
  simp [h2, hv']

theorem processLine_bad (acc : ℚ × Nat) (l : String)
    (hc : contributingLine l = true) (hv : lineValue l = none) :
    processLine acc l = .error (parseErrMsg (coverageToken l)) := by
  have h2 : (goSplit l "coverage:").length = 2 := by
    simpa [contributingLine] using hc
  have hv' : parseGoFloat (coverageToken l) = none := hv
  unfold processLine
  simp [h2, hv']

theorem foldlM_processLine_ok :
    ∀ (lines : List String) (a : ℚ) (n : Nat) (vs : List ℚ),
      valuesOfLines lines = some vs →
      lines.foldlM processLine (a, n) = .ok (a + vs.sum, n + unitsOfLines lines) := by
  intro lines
  induction lines with
  | nil =>
    intro a n vs hvs
    simp only [valuesOfLines, Option.some.injEq] at hvs
    subst hvs
    simp only [unitsOfLines, List.sum_nil, add_zero, Nat.add_zero]
    rfl
  | cons l rest ih =>
    intro a n vs hvs
    by_cases hc : contributingLine l
    · rw [valuesOfLines, if_pos hc] at hvs
      cases hv : lineValue l with
      | none => rw [hv] at hvs; cases hvs
      | some v =>
        rw [hv] at hvs
        cases hrest : valuesOfLines rest with
        | none => rw [hrest] at hvs; cases hvs
        | some vs' =>
          rw [hrest] at hvs
          simp only [Option.some.injEq] at hvs
          subst hvs
          rw [List.foldlM_cons, processLine_contrib (a, n) l v hc hv]
          have hstep := ih (a + v) (n + lineUnits l) vs' hrest
          rw [show (Except.ok (a + v, n + lineUnits l) >>= fun b =>
                rest.foldlM processLine b : Except String (ℚ × Nat)) =
              rest.foldlM processLine (a + v, n + lineUnits l) from rfl, hstep]
          have hq : a + v + vs'.sum = a + (v :: vs').sum := by
            simp [List.sum_cons]; ring
          have hn : n + lineUnits l + unitsOfLines rest =
              n + unitsOfLines (l :: rest) := by
            rw [unitsOfLines, if_pos hc]
            omega
          rw [hq, hn]
    · have hc' : contributingLine l = false := by simpa using hc
      rw [valuesOfLines, if_neg (by simp [hc'])] at hvs
      rw [List.foldlM_cons, processLine_skip (a, n) l hc']
      have hn : unitsOfLines (l :: rest) = unitsOfLines rest := by
        simp [unitsOfLines, hc']
      rw [show (Except.ok (a, n) >>= fun b =>
            rest.foldlM processLine b : Except String (ℚ × Nat)) =
          rest.foldlM processLine (a, n) from rfl, ih a n vs hvs, hn]

theorem foldlM_processLine_err :
    ∀ (lines : List String) (acc : ℚ × Nat),
      (∃ l ∈ lines, contributingLine l = true ∧ lineValue l = none) →
      ∃ tok, lines.foldlM processLine acc = .error (parseErrMsg tok) := by
  intro lines
  induction lines with
  | nil =>
    intro acc h
    simp at h
  | cons l rest ih =>
    intro acc h
    by_cases hc : contributingLine l
    · cases hv : lineValue l with
      | none =>
        refine ⟨coverageToken l, ?_⟩
        rw [List.foldlM_cons, processLine_bad acc l hc hv]
        rfl
      | some v =>
        have hmem : ∃ x ∈ rest, contributingLine x = true ∧ lineValue x = none := by
          rcases h with ⟨x, hx, hcx, hvx⟩
          rcases List.mem_cons.mp hx with hx' | hx'
          · subst hx'; rw [hv] at hvx; cases hvx
          · exact ⟨x, hx', hcx, hvx⟩
        rw [List.foldlM_cons, processLine_contrib acc l v hc hv]
        exact ih _ hmem
    · have hc' : contributingLine l = false := by simpa using hc
      have hmem : ∃ x ∈ rest, contributingLine x = true ∧ lineValue x = none := by
        rcases h with ⟨x, hx, hcx, hvx⟩
        rcases List.mem_cons.mp hx with hx' | hx'
        · subst hx'; rw [hc'] at hcx; cases hcx
        · exact ⟨x, hx', hcx, hvx⟩
      rw [List.foldlM_cons, processLine_skip acc l hc']
      exact ih _ hmem

theorem foldlM_processLine_nomarker :
    ∀ (lines : List String) (acc : ℚ × Nat),
      (∀ l ∈ lines, hasCoverageMarker l = false) →
      lines.foldlM processLine acc = .ok acc := by
  intro lines
  induction lines with
  | nil => intro acc _; rfl
  | cons l rest ih =>
    intro acc h
    have hl : hasCoverageMarker l = false := h l (by simp)
    have hc : contributingLine l = false := by
      simp only [hasCoverageMarker, decide_eq_false_iff_not, not_le] at hl
      simp only [contributingLine, beq_eq_false_iff_ne, ne_eq]
      omega
    rw [List.foldlM_cons, processLine_skip acc l hc]
    exact ih acc (fun x hx => h x (by simp [hx]))

/-- C5: the aggregator returns the sum of the parsed percentages divided by
the count of non-empty tab-separated tokens before each `coverage:` marker;
on the sample two-line input it returns exactly 50 with no error; with zero
`coverage:` lines it returns the "no data" error; with a non-numeric
percentage token it returns a parse error. -/
theorem calculateTotalCoverage_spec :
    (∀ (output : String) (vs : List ℚ), coverageValues output = some vs →
        0 < coverageUnits output →
        calculateTotalCoverage output = .ok (vs.sum / (coverageUnits output : ℚ)))
    ∧ calculateTotalCoverage
        "pkg/a\tpkg/b\tcoverage: 50.0% of statements\npkg/c\tcoverage: 100.0% of statements\n"
        = .ok 50
    ∧ (∀ output : String, (∀ l ∈ goLines output, hasCoverageMarker l = false) →
        calculateTotalCoverage output = .error noDataMsg)
    ∧ (∀ output : String, (∃ l ∈ coverageLines output, lineValue l = none) →
        ∃ tok, calculateTotalCoverage output = .error (parseErrMsg tok)) := by
  refine ⟨?_, ?_, ?_, ?_⟩
  · intro output vs hvs hu
    have hvs' : valuesOfLines (goLines output) = some vs := hvs
    have hfold := foldlM_processLine_ok (goLines output) 0 0 vs hvs'
    have hne : unitsOfLines (goLines output) ≠ 0 := by
      have hcu : coverageUnits output = unitsOfLines (goLines output) := rfl
      omega
    unfold calculateTotalCoverage
    rw [hfold]
    simp only [zero_add, Nat.zero_add, hne, if_false, if_neg hne]
    rfl
  · with_unfolding_all rfl
  · intro output h
    have hfold := foldlM_processLine_nomarker (goLines output) (0, 0) h
    unfold calculateTotalCoverage
    rw [hfold]
    rfl
  · intro output h
    have h' : ∃ l ∈ goLines output, contributingLine l = true ∧ lineValue l = none := by
      rcases h with ⟨l, hl, hv⟩
      have hl' : l ∈ (goLines output).filter contributingLine := hl
      have hm := List.mem_filter.mp hl'
      exact ⟨l, hm.1, hm.2, hv⟩
    rcases foldlM_processLine_err (goLines output) (0, 0) h' with ⟨tok, htok⟩
    refine ⟨tok, ?_⟩
    unfold calculateTotalCoverage
    rw [htok]

/-- Concrete instantiation of `calculateTotalCoverage_spec`. -/
theorem calculateTotalCoverage_spec_witness :
    coverageValues
        "pkg/a\tpkg/b\tcoverage: 50.0% of statements\npkg/c\tcoverage: 100.0% of statements\n"
      = some [50, 100]
    ∧ 0 < coverageUnits
        "pkg/a\tpkg/b\tcoverage: 50.0% of statements\npkg/c\tcoverage: 100.0% of statements\n"
    ∧ calculateTotalCoverage
        "pkg/a\tpkg/b\tcoverage: 50.0% of statements\npkg/c\tcoverage: 100.0% of statements\n"
      = .ok (([50, 100] : List ℚ).sum /
          ((coverageUnits
            "pkg/a\tpkg/b\tcoverage: 50.0% of statements\npkg/c\tcoverage: 100.0% of statements\n" : ℕ) : ℚ))
    ∧ (∀ l ∈ goLines "hello\nworld\n", hasCoverageMarker l = false)
    ∧ calculateTotalCoverage "hello\nworld\n" = .error noDataMsg
    ∧ (∃ l ∈ coverageLines "pkg\tcoverage: abc% of statements\n", lineValue l = none)
    ∧ ∃ tok, calculateTotalCoverage "pkg\tcoverage: abc% of statements\n"
        = .error (parseErrMsg tok) :=
  ⟨by with_unfolding_all rfl,
   by decide,
   calculateTotalCoverage_spec.1 _ [50, 100] (by with_unfolding_all rfl) (by decide),
   by decide,
   calculateTotalCoverage_spec.2.2.1 _ (by decide),
   ⟨"pkg\tcoverage: abc% of statements", by decide, by with_unfolding_all rfl⟩,
   calculateTotalCoverage_spec.2.2.2 _
     ⟨"pkg\tcoverage: abc% of statements", by decide, by with_unfolding_all rfl⟩⟩

/-- C2: in both the collection loop and the broadcast loop, a response from
an already-seen identity leaves the state unchanged: `SeenHosts` is not
re-inserted, no artifact is written, and the iteration makes no progress
toward the `N`-distinct termination condition. -/
theorem duplicate_identity_ignored (N : Int) (t : Nat) (h f : String)
    (b : List Nat) (rest : List (Nat × NetEvent)) (st : CollectState)
    (hosts : List String) (ht : t ≤ allReqTimeout)
    (hmem : h ∈ st.seenHosts) (hmem' : h ∈ hosts) :
    requestOtherProfileLoop N ((t, .response h f b) :: rest) st =
      requestOtherProfileLoop N rest st ∧
    resetOtherProfileLoop N ((t, .response h f b) :: rest) hosts =
      resetOtherProfileLoop N rest hosts := by
  constructor
  · by_cases hlt : (st.seenHosts.length : Int) < N
    · exact requestLoop_dup N t h f b rest st hlt ht hmem
    · rw [requestLoop_done N _ st hlt, requestLoop_done N _ st hlt]
  · by_cases hlt : (hosts.length : Int) < N
    · exact resetLoop_dup N t h f b rest hosts hlt ht hmem'
    · rw [resetLoop_done N _ hosts hlt, resetLoop_done N _ hosts hlt]

/-- Concrete instantiation of `duplicate_identity_ignored`. -/
theorem duplicate_identity_ignored_witness :
    (0 : Nat) ≤ allReqTimeout ∧
    "a" ∈ (["a"] : List String) ∧
    (requestOtherProfileLoop 2 [(0, .response "a" "f" [])] ⟨["a"], []⟩ =
        requestOtherProfileLoop 2 [] ⟨["a"], []⟩ ∧
      resetOtherProfileLoop 2 [(0, .response "a" "f" [])] ["a"] =
        resetOtherProfileLoop 2 [] ["a"]) :=
  ⟨by decide, by decide,
   duplicate_identity_ignored 2 0 "a" "f" [] [] ⟨["a"], []⟩ ["a"]
     (by decide) (by decide) (by decide)⟩

/-- C4: a transport failure at any point aborts both loops at once with a
propagated transport error, regardless of previously collected peers and of
any later events: the failed peer is never skipped and the request is never
retried. -/
theorem transport_failure_aborts (N : Int) (t : Nat) (msg : String)
    (rest : List (Nat × NetEvent)) (st : CollectState) (hosts : List String)
    (hstlt : (st.seenHosts.length : Int) < N)
    (hhlt : (hosts.length : Int) < N) (ht : t ≤ allReqTimeout) :
    requestOtherProfileLoop N ((t, .failure msg) :: rest) st =
      some (.error (.transport msg)) ∧
    resetOtherProfileLoop N ((t, .failure msg) :: rest) hosts =
      some (.error (.transport msg)) :=
  ⟨requestLoop_fail N t msg rest st hstlt ht,
   resetLoop_fail N t msg rest hosts hhlt ht⟩

/-- Concrete instantiation of `transport_failure_aborts`, with one peer
already collected and further responders available afterwards. -/
theorem transport_failure_aborts_witness :
    ((["a", "b"] : List String).length : Int) < 3 ∧
    (0 : Nat) ≤ allReqTimeout ∧
    (requestOtherProfileLoop 3
        [(0, .failure "connection refused"), (1, .response "c" "f" [])]
        ⟨["a", "b"], [⟨"b", "f", [7], true⟩]⟩ =
      some (.error (.transport "connection refused")) ∧
    resetOtherProfileLoop 3
        [(0, .failure "connection refused"), (1, .response "c" "f" [])]
        ["a", "b"] =
      some (.error (.transport "connection refused"))) :=
  ⟨by decide, by decide,
   transport_failure_aborts 3 0 "connection refused"
     [(1, .response "c" "f" [])] ⟨["a", "b"], [⟨"b", "f", [7], true⟩]⟩
     ["a", "b"] (by decide) (by decide) (by decide)⟩

/-- C10: `SetNumberPods` stores any integer without validation, and for every
target count at most one — the default 1, zero, and negative values — both
the collector and the broadcaster return success at once, consuming no
network event and writing no peer artifact. -/
theorem setNumberPods_le_one_trivial :
    (∀ n : Int, setNumberPods n = n) ∧
    (∀ (n : Int) (localId : String) (scratch0 : List Subdir)
        (events : List (Nat × NetEvent)), n ≤ 1 →
      requestOtherProfile n localId scratch0 events =
        some (.ok ⟨[localId], scratch0⟩) ∧
      resetOtherProfile n localId events = some (.ok [localId])) := by
  refine ⟨fun n => rfl, fun n localId scratch0 events hn => ⟨?_, ?_⟩⟩
  · exact requestLoop_done n events ⟨[localId], scratch0⟩ (by
      simp only [List.length_singleton, Nat.cast_one]
      omega)
  · exact resetLoop_done n events [localId] (by
      simp only [List.length_singleton, Nat.cast_one]
      omega)

/-- Concrete instantiation of `setNumberPods_le_one_trivial`. -/
theorem setNumberPods_le_one_trivial_witness :
    setNumberPods (-4) = -4 ∧
    (0 : Int) ≤ 1 ∧
    requestOtherProfile 0 "a" [] [(0, .failure "x")] = some (.ok ⟨["a"], []⟩) ∧
    resetOtherProfile 0 "a" [(0, .failure "x")] = some (.ok ["a"]) :=
  ⟨setNumberPods_le_one_trivial.1 (-4),
   by decide,
   (setNumberPods_le_one_trivial.2 0 "a" [] [(0, .failure "x")] (by decide)).1,
   (setNumberPods_le_one_trivial.2 0 "a" [] [(0, .failure "x")] (by decide)).2⟩

/-- C8: when the OS hostname lookup fails the resolved identity is
`generated-hostname-<integer>` (for the non-negative integer produced by
`rand.Int`), and the identity is fixed at initialization: every read of the
variable returns the identical stored string. -/
theorem hostname_fallback_pattern :
    (∀ r : Nat, resolveHostname none r = "generated-hostname-" ++ toString r ∧
      isGeneratedHostname (resolveHostname none r)) ∧
    (∀ (osResult : Option String) (randVal : Nat),
      readHostnameVar (resolveHostname osResult randVal) =
        resolveHostname osResult randVal) :=
  ⟨fun r => ⟨rfl, ⟨r, rfl⟩⟩, fun _ _ => rfl⟩

/-- C6: the Self-Exclusion Guard: a request whose identity header equals the
local identity short-circuits both the reset handler and the profile handler
with status 200, no body, no headers and no side effect, before any local
state mutation; a request with any other header value (the absent header
reads as `""`) always proceeds to the normal path. -/
theorem self_exclusion_guard (localId reqHost : String)
    (clearErr : Option String) (broadcastErr : Option CovError)
    (localDump : Option (List (String × List Nat))) :
    (reqHost = localId →
      covResetHandler localId reqHost clearErr broadcastErr =
        ⟨200, "", false, false⟩ ∧
      covBinProfileHandler localId reqHost localDump =
        ⟨200, "", "", [], false, false⟩) ∧
    (reqHost ≠ localId →
      (covResetHandler localId reqHost clearErr broadcastErr).cleared = true ∧
      (covBinProfileHandler localId reqHost localDump).attemptedDump = true) := by
  constructor
  · intro hEq
    unfold covResetHandler covBinProfileHandler
    simp [hEq]
  · intro hNe
    unfold covResetHandler covBinProfileHandler
    rw [if_neg hNe, if_neg hNe]
    constructor
    · cases clearErr with
      | none => cases broadcastErr <;> rfl
      | some e => rfl
    · cases localDump with
      | none => rfl
      | some files =>
        cases hf : files.filter (fun f => "covcounters".isPrefixOf f.1) with
        | nil => simp [hf]
        | cons p rest => obtain ⟨n, d⟩ := p; simp [hf]

/-- Concrete instantiation of `self_exclusion_guard`. -/
theorem self_exclusion_guard_witness :
    (("a" : String) = "a" ∧
      covResetHandler "a" "a" none none = ⟨200, "", false, false⟩ ∧
      covBinProfileHandler "a" "a" (some [("covcounters.1", [3])]) =
        ⟨200, "", "", [], false, false⟩) ∧
    (("" : String) ≠ "a" ∧
      (covResetHandler "a" "" none none).cleared = true ∧
      (covBinProfileHandler "a" "" (some [("covcounters.1", [3])])).attemptedDump
        = true) :=
  ⟨⟨rfl,
    (self_exclusion_guard "a" "a" none none (some [("covcounters.1", [3])])).1 rfl⟩,
   ⟨by decide,
    (self_exclusion_guard "a" "" none none (some [("covcounters.1", [3])])).2
      (by decide)⟩⟩

/-- C9 (amended): a collection request routed back to its issuer: the
guard's 200 response carries neither an `x-hostname` nor an `x-filename`
header, so the collector reads the empty string for both; the empty string
is not in the seeded `SeenHosts` and the code does insert it, but the
subsequent artifact write for the empty filename fails —
`filepath.Join(tmpCov, "")` is the subdirectory itself, so `os.Create`
fails — and `requestOtherProfile` aborts at once with the write error: no
counter file is written and the empty identity never contributes to the
`N`-distinct termination condition. -/
theorem self_routed_empty_identity (N : Int) (localId : String)
    (body : List Nat) (scratch0 : List Subdir)
    (localDump : Option (List (String × List Nat)))
    (t : Nat) (rest : List (Nat × NetEvent))
    (hne : localId ≠ "") (hN : (1 : Int) < N) (ht : t ≤ allReqTimeout) :
    (covBinProfileHandler localId localId localDump).hostHeader = "" ∧
    (covBinProfileHandler localId localId localDump).fnameHeader = "" ∧
    ("" ∉ ([localId] : List String)) ∧
    requestOtherProfileLoop N ((t, .response "" "" body) :: rest)
        ⟨[localId], scratch0⟩ =
      some (.error (.writeFailure createOnDirErr)) := by
  refine ⟨?_, ?_, ?_, ?_⟩
  · unfold covBinProfileHandler
    rw [if_pos rfl]
  · unfold covBinProfileHandler
    rw [if_pos rfl]
  · simp only [List.mem_singleton]
    exact fun h => hne h.symm
  · have hmem : "" ∉ (⟨[localId], scratch0⟩ : CollectState).seenHosts := by
      simp only [List.mem_singleton]
      exact fun h => hne h.symm
    have hlt : (((⟨[localId], scratch0⟩ : CollectState).seenHosts.length : Int)) < N := by
      simp only [List.length_singleton, Nat.cast_one]
      omega
    exact requestLoop_write_fail N t "" body rest ⟨[localId], scratch0⟩
      hlt ht hmem

/-- C9 counterexample to the original claim: at the concrete self-routed
response (both headers absent, so identity and filename both read as `""`)
the collection aborts with the write error; in particular it does not insert
the empty identity and continue to the successful state with its artifact
that the claim predicts. -/
theorem self_routed_empty_identity_counterexample :
    requestOtherProfile 2 "pod-1" [] [(0, .response "" "" [])] =
      some (.error (.writeFailure createOnDirErr)) ∧
    requestOtherProfile 2 "pod-1" [] [(0, .response "" "" [])] ≠
      some (.ok ⟨["pod-1", ""], [⟨"", "", [], true⟩]⟩) := by
  have h1 : requestOtherProfile 2 "pod-1" [] [(0, .response "" "" [])] =
      some (.error (.writeFailure createOnDirErr)) := by rfl
  refine ⟨h1, ?_⟩
  rw [h1]
  simp

/-- Concrete instantiation of `self_routed_empty_identity`. -/
theorem self_routed_empty_identity_witness :
    ("pod-1" : String) ≠ "" ∧ (1 : Int) < 2 ∧ (0 : Nat) ≤ allReqTimeout ∧
    ((covBinProfileHandler "pod-1" "pod-1" (some [])).hostHeader = "" ∧
      (covBinProfileHandler "pod-1" "pod-1" (some [])).fnameHeader = "" ∧
      ("" ∉ (["pod-1"] : List String)) ∧
      requestOtherProfileLoop 2 [(0, .response "" "" [9])] ⟨["pod-1"], []⟩ =
        some (.error (.writeFailure createOnDirErr))) :=
  ⟨by decide, by decide, by decide,
   self_routed_empty_identity 2 "pod-1" [9] [] (some []) 0 []
     (by decide) (by decide) (by decide)⟩

/-- C7 (refuted by the code: the handler keeps going after the early
failures): with the local artifact write succeeding and the peer collection
failing, `CovPercentHandler` writes the 500 header but still invokes the
merge step, the percent tool and the aggregation — and even writes a body
when they succeed — instead of aborting after the failing step. -/
theorem covPercentHandler_continues_after_collect_failure :
    (covPercentHandler (.ok "scratch")
        (fun _ => some (.transport "connection refused"))
        (fun _ => .ok "merged")
        (fun _ => .ok "pkg\tcoverage: 10.0% of statements\n")).status = 500 ∧
    (covPercentHandler (.ok "scratch")
        (fun _ => some (.transport "connection refused"))
        (fun _ => .ok "merged")
        (fun _ => .ok "pkg\tcoverage: 10.0% of statements\n")).ranMerge = true ∧
    (covPercentHandler (.ok "scratch")
        (fun _ => some (.transport "connection refused"))
        (fun _ => .ok "merged")
        (fun _ => .ok "pkg\tcoverage: 10.0% of statements\n")).ranPercent = true ∧
    (covPercentHandler (.ok "scratch")
        (fun _ => some (.transport "connection refused"))
        (fun _ => .ok "merged")
        (fun _ => .ok "pkg\tcoverage: 10.0% of statements\n")).ranAggregate = true ∧
    (covPercentHandler (.ok "scratch")
        (fun _ => some (.transport "connection refused"))
        (fun _ => .ok "merged")
        (fun _ => .ok "pkg\tcoverage: 10.0% of statements\n")).body = some 10 := by
  refine ⟨?_, ?_, ?_, ?_, ?_⟩ <;> with_unfolding_all rfl

/-! ## Termination of the collection loop when enough distinct identities
answer -/

theorem requestLoop_completes :
    ∀ (events : List (Nat × NetEvent)) (N : Int) (st : CollectState),
      st.seenHosts.Nodup →
      (∀ e ∈ events, e.2.isResponse = true) →
      (∀ e ∈ events, e.1 ≤ allReqTimeout) →
      (∀ e ∈ events, e.2.fnameOk = true) →
      (st.seenHosts.length : Int) ≤ N →
      N ≤ ((st.seenHosts.toFinset ∪ (eventHosts events).toFinset).card : Int) →
      ∃ st', requestOtherProfileLoop N events st = some (.ok st') ∧
        (st'.seenHosts.length : Int) = N ∧
        st'.seenHosts.Nodup ∧
        st'.seenHosts.toFinset ⊆
          st.seenHosts.toFinset ∪ (eventHosts events).toFinset ∧
        (st.scratch.map Subdir.host = st.seenHosts →
          st'.scratch.map Subdir.host = st'.seenHosts) ∧
        ((∀ d ∈ st.scratch, d.hasMeta = true) →
          ∀ d ∈ st'.scratch, d.hasMeta = true) := by
  intro events
  induction events with
  | nil =>
    intro N st hnd _ _ _ hle hge
    have hE : (eventHosts ([] : List (Nat × NetEvent))).toFinset = ∅ := rfl
    rw [hE, Finset.union_empty, List.toFinset_card_of_nodup hnd] at hge
    have hlen : (st.seenHosts.length : Int) = N := le_antisymm hle hge
    refine ⟨st, requestLoop_done N [] st (by omega), hlen, hnd, ?_, fun hp => hp,
      fun hp => hp⟩
    rw [hE, Finset.union_empty]
  | cons e rest ih =>
    intro N st hnd hresp ht hfn hle hge
    obtain ⟨t, ev⟩ := e
    have hr := hresp (t, ev) (by simp)
    cases ev with
    | failure m => simp [NetEvent.isResponse] at hr
    | response h f b =>
      have htle : t ≤ allReqTimeout := ht (t, .response h f b) (by simp)
      have hf : f ≠ "" := by
        have hok := hfn (t, .response h f b) (by simp)
        simpa [NetEvent.fnameOk] using hok
      have hEH : eventHosts ((t, NetEvent.response h f b) :: rest) =
          h :: eventHosts rest := rfl
      by_cases hlt : (st.seenHosts.length : Int) < N
      · by_cases hmem : h ∈ st.seenHosts
        · -- duplicate response: state unchanged
          have hU : st.seenHosts.toFinset ∪ (h :: eventHosts rest).toFinset =
              st.seenHosts.toFinset ∪ (eventHosts rest).toFinset := by
            rw [List.toFinset_cons, Finset.union_insert,
              Finset.insert_eq_self.mpr
                (Finset.mem_union_left _ (List.mem_toFinset.mpr hmem))]
          rw [hEH, hU] at hge
          obtain ⟨st', h1, h2, h3, h4, h5, h6⟩ := ih N st hnd
            (fun e he => hresp e (List.mem_cons_of_mem _ he))
            (fun e he => ht e (List.mem_cons_of_mem _ he))
            (fun e he => hfn e (List.mem_cons_of_mem _ he)) hle hge
          refine ⟨st', ?_, h2, h3, ?_, h5, h6⟩
          · rw [requestLoop_dup N t h f b rest st hlt htle hmem]
            exact h1
          · rw [hEH, hU]
            exact h4
        · -- new identity: insert it and write its artifact
          have hnd₂ : (st.seenHosts ++ [h]).Nodup := by
            simp [List.nodup_append, hnd, hmem]
          have hle₂ : (((st.seenHosts ++ [h]).length : Nat) : Int) ≤ N := by
            simp only [List.length_append, List.length_singleton]
            push_cast
            omega
          have hset₂ : (st.seenHosts ++ [h]).toFinset ∪
              (eventHosts rest).toFinset =
              st.seenHosts.toFinset ∪ (h :: eventHosts rest).toFinset := by
            ext a
            simp only [Finset.mem_union, List.mem_toFinset, List.mem_append,
              List.mem_singleton, List.mem_cons, eventHosts]
            tauto
          have hge₂ : N ≤ (((st.seenHosts ++ [h]).toFinset ∪
              (eventHosts rest).toFinset).card : Int) := by
            rw [hset₂]
            rw [hEH] at hge
            exact hge
          obtain ⟨st', h1, h2, h3, h4, h5, h6⟩ := ih N
            ⟨st.seenHosts ++ [h], st.scratch ++ [⟨h, f, b, true⟩]⟩ hnd₂
            (fun e he => hresp e (List.mem_cons_of_mem _ he))
            (fun e he => ht e (List.mem_cons_of_mem _ he))
            (fun e he => hfn e (List.mem_cons_of_mem _ he)) hle₂ hge₂
          refine ⟨st', ?_, h2, h3, ?_, ?_, ?_⟩
          · rw [requestLoop_new N t h f b rest st hlt htle hmem hf]
            exact h1
          · rw [hEH, ← hset₂]
            exact h4
          · intro hpre
            apply h5
            simp only [List.map_append, hpre, List.map_cons, List.map_nil]
          · intro hpre
            apply h6
            intro d hd
            rcases List.mem_append.mp hd with hd' | hd'
            · exact hpre d hd'
            · rw [List.mem_singleton.mp hd']
      · have hlen : (st.seenHosts.length : Int) = N := le_antisymm hle (by omega)
        refine ⟨st, requestLoop_done N _ st hlt, hlen, hnd, ?_, fun hp => hp,
          fun hp => hp⟩
        exact Finset.subset_union_left

/-- C1: for every target count `N ≥ 1` and every in-budget sequence of
genuine responses (each carrying a non-empty artifact filename, as every
`CovBinProfileHandler` peer response does) with exactly `N` distinct
responder identities (the local one among them), each answering at least
once, the collector terminates successfully with `SeenHosts` of size exactly
`N`, and the scratch directory holds exactly one subdirectory per distinct
replica — the local one written by the preceding local dump plus one per
newly seen peer — each with one counter file and a metadata dump. -/
theorem requestOtherProfile_collects_all (N : Int) (localId f0 : String)
    (b0 : List Nat) (events : List (Nat × NetEvent))
    (hN : 1 ≤ N)
    (hresp : ∀ e ∈ events, e.2.isResponse = true)
    (ht : ∀ e ∈ events, e.1 ≤ allReqTimeout)
    (hfn : ∀ e ∈ events, e.2.fnameOk = true)
    (hself : localId ∈ eventHosts events)
    (hcard : ((eventHosts events).toFinset.card : Int) = N) :
    ∃ st, requestOtherProfile N localId [⟨localId, f0, b0, true⟩] events =
        some (.ok st) ∧
      (st.seenHosts.length : Int) = N ∧
      st.seenHosts.Nodup ∧
      st.seenHosts.toFinset = (eventHosts events).toFinset ∧
      st.scratch.map Subdir.host = st.seenHosts ∧
      (∀ d ∈ st.scratch, d.hasMeta = true) := by
  have hseedU : ([localId] : List String).toFinset ∪
      (eventHosts events).toFinset = (eventHosts events).toFinset := by
    rw [List.toFinset_cons, List.toFinset_nil, insert_emptyc_eq,
      ← Finset.insert_eq,
      Finset.insert_eq_self.mpr (List.mem_toFinset.mpr hself)]
  obtain ⟨st, h1, h2, h3, h4, h5, h6⟩ :=
    requestLoop_completes events N ⟨[localId], [⟨localId, f0, b0, true⟩]⟩
      (by simp)
      hresp ht hfn
      (by simp only [List.length_singleton, Nat.cast_one]; omega)
      (by
        show N ≤ ((([localId] : List String).toFinset ∪
          (eventHosts events).toFinset).card : Int)
        rw [hseedU]
        omega)
  refine ⟨st, h1, h2, h3, ?_, h5 rfl, h6 (by simp)⟩
  apply Finset.eq_of_subset_of_card_le
  · have h4' := h4
    rw [show (⟨[localId], [⟨localId, f0, b0, true⟩]⟩ :
        CollectState).seenHosts = [localId] from rfl, hseedU] at h4'
    exact h4'
  · rw [List.toFinset_card_of_nodup h3]
    omega

/-- Concrete instantiation of `requestOtherProfile_collects_all`: two pods,
with the entry URL first routing back an echo of the local pod and then the
one remote peer. -/
theorem requestOtherProfile_collects_all_witness :
    (1 : Int) ≤ 2 ∧
    (∀ e ∈ ([(0, .response "a" "sf" []), (1000, .response "b" "fb" [1])] :
        List (Nat × NetEvent)), e.2.isResponse = true) ∧
    (∀ e ∈ ([(0, .response "a" "sf" []), (1000, .response "b" "fb" [1])] :
        List (Nat × NetEvent)), e.1 ≤ allReqTimeout) ∧
    (∀ e ∈ ([(0, .response "a" "sf" []), (1000, .response "b" "fb" [1])] :
        List (Nat × NetEvent)), e.2.fnameOk = true) ∧
    "a" ∈ eventHosts [(0, .response "a" "sf" []), (1000, .response "b" "fb" [1])] ∧
    ((eventHosts [(0, .response "a" "sf" []),
        (1000, .response "b" "fb" [1])]).toFinset.card : Int) = 2 ∧
    ∃ st, requestOtherProfile 2 "a" [⟨"a", "f0", [], true⟩]
        [(0, .response "a" "sf" []), (1000, .response "b" "fb" [1])] =
        some (.ok st) ∧
      (st.seenHosts.length : Int) = 2 ∧
      st.seenHosts.Nodup ∧
      st.seenHosts.toFinset = (eventHosts [(0, .response "a" "sf" []),
        (1000, .response "b" "fb" [1])]).toFinset ∧
      st.scratch.map Subdir.host = st.seenHosts ∧
      (∀ d ∈ st.scratch, d.hasMeta = true) :=
  ⟨by decide, by decide, by decide, by decide, by decide, by decide,
   requestOtherProfile_collects_all 2 "a" "f0" []
     [(0, .response "a" "sf" []), (1000, .response "b" "fb" [1])]
     (by decide) (by decide) (by decide) (by decide) (by decide) (by decide)⟩

/-! ## Starvation: fewer than `N` observable identities -/

theorem requestLoop_starve :
    ∀ (events : List (Nat × NetEvent)) (N : Int) (st : CollectState),
      st.seenHosts.Nodup →
      (∀ e ∈ events, e.2.isResponse = true) →
      (∀ e ∈ events, e.2.fnameOk = true) →
      ((st.seenHosts.toFinset ∪ (eventHosts events).toFinset).card : Int) < N →
      (∃ e ∈ events, allReqTimeout < e.1) →
      requestOtherProfileLoop N events st = some (.error .timeout) := by
  intro events
  induction events with
  | nil =>
    intro N st _ _ _ _ hex
    simp at hex
  | cons e rest ih =>
    intro N st hnd hresp hfn hfew hex
    obtain ⟨t, ev⟩ := e
    have hr := hresp (t, ev) (by simp)
    cases ev with
    | failure m => simp [NetEvent.isResponse] at hr
    | response h f b =>
      have hf : f ≠ "" := by
        have hok := hfn (t, .response h f b) (by simp)
        simpa [NetEvent.fnameOk] using hok
      have hlt : (st.seenHosts.length : Int) < N := by
        have hsub : st.seenHosts.toFinset ⊆ st.seenHosts.toFinset ∪
            (eventHosts ((t, NetEvent.response h f b) :: rest)).toFinset :=
          Finset.subset_union_left
        have hcle := Finset.card_le_card hsub
        rw [List.toFinset_card_of_nodup hnd] at hcle
        omega
      by_cases htt : allReqTimeout < t
      · exact requestLoop_timeout N t _ rest st hlt htt
      · have htle : t ≤ allReqTimeout := Nat.not_lt.mp htt
        have hex' : ∃ e ∈ rest, allReqTimeout < e.1 := by
          rcases hex with ⟨e', he', hte'⟩
          rcases List.mem_cons.mp he' with he'' | he''
          · rw [he''] at hte'; exact absurd hte' htt
          · exact ⟨e', he'', hte'⟩
        have hEH : eventHosts ((t, NetEvent.response h f b) :: rest) =
            h :: eventHosts rest := rfl
        rw [hEH] at hfew
        by_cases hmem : h ∈ st.seenHosts
        · have hU : st.seenHosts.toFinset ∪ (h :: eventHosts rest).toFinset =
              st.seenHosts.toFinset ∪ (eventHosts rest).toFinset := by
            rw [List.toFinset_cons, Finset.union_insert,
              Finset.insert_eq_self.mpr
                (Finset.mem_union_left _ (List.mem_toFinset.mpr hmem))]
          rw [hU] at hfew
          rw [requestLoop_dup N t h f b rest st hlt htle hmem]
          exact ih N st hnd
            (fun e he => hresp e (List.mem_cons_of_mem _ he))
            (fun e he => hfn e (List.mem_cons_of_mem _ he)) hfew hex'
        · have hnd₂ : (st.seenHosts ++ [h]).Nodup := by
            simp [List.nodup_append, hnd, hmem]
          have hset₂ : (st.seenHosts ++ [h]).toFinset ∪
              (eventHosts rest).toFinset =
              st.seenHosts.toFinset ∪ (h :: eventHosts rest).toFinset := by
            ext a
            simp only [Finset.mem_union, List.mem_toFinset, List.mem_append,
              List.mem_singleton, List.mem_cons]
            tauto
          rw [requestLoop_new N t h f b rest st hlt htle hmem hf]
          exact ih N ⟨st.seenHosts ++ [h], st.scratch ++ [⟨h, f, b, true⟩]⟩ hnd₂
            (fun e he => hresp e (List.mem_cons_of_mem _ he))
            (fun e he => hfn e (List.mem_cons_of_mem _ he))
            (by rw [hset₂]; exact hfew) hex'

theorem resetLoop_starve :
    ∀ (events : List (Nat × NetEvent)) (N : Int) (hosts : List String),
      hosts.Nodup →
      (∀ e ∈ events, e.2.isResponse = true) →
      ((hosts.toFinset ∪ (eventHosts events).toFinset).card : Int) < N →
      (∃ e ∈ events, allReqTimeout < e.1) →
      resetOtherProfileLoop N events hosts = some (.error .timeout) := by
  intro events
  induction events with
  | nil =>
    intro N hosts _ _ _ hex
    simp at hex
  | cons e rest ih =>
    intro N hosts hnd hresp hfew hex
    obtain ⟨t, ev⟩ := e
    have hr := hresp (t, ev) (by simp)
    cases ev with
    | failure m => simp [NetEvent.isResponse] at hr
    | response h f b =>
      have hlt : (hosts.length : Int) < N := by
        have hsub : hosts.toFinset ⊆ hosts.toFinset ∪
            (eventHosts ((t, NetEvent.response h f b) :: rest)).toFinset :=
          Finset.subset_union_left
        have hcle := Finset.card_le_card hsub
        rw [List.toFinset_card_of_nodup hnd] at hcle
        omega
      by_cases htt : allReqTimeout < t
      · exact resetLoop_timeout N t _ rest hosts hlt htt
      · have htle : t ≤ allReqTimeout := Nat.not_lt.mp htt
        have hex' : ∃ e ∈ rest, allReqTimeout < e.1 := by
          rcases hex with ⟨e', he', hte'⟩
          rcases List.mem_cons.mp he' with he'' | he''
          · rw [he''] at hte'; exact absurd hte' htt
          · exact ⟨e', he'', hte'⟩
        have hEH : eventHosts ((t, NetEvent.response h f b) :: rest) =
            h :: eventHosts rest := rfl
        rw [hEH] at hfew
        by_cases hmem : h ∈ hosts
        · have hU : hosts.toFinset ∪ (h :: eventHosts rest).toFinset =
              hosts.toFinset ∪ (eventHosts rest).toFinset := by
            rw [List.toFinset_cons, Finset.union_insert,
              Finset.insert_eq_self.mpr
                (Finset.mem_union_left _ (List.mem_toFinset.mpr hmem))]
          rw [hU] at hfew
          rw [resetLoop_dup N t h f b rest hosts hlt htle hmem]
          exact ih N hosts hnd
            (fun e he => hresp e (List.mem_cons_of_mem _ he)) hfew hex'
        · have hnd₂ : (hosts ++ [h]).Nodup := by
            simp [List.nodup_append, hnd, hmem]
          have hset₂ : (hosts ++ [h]).toFinset ∪ (eventHosts rest).toFinset =
              hosts.toFinset ∪ (h :: eventHosts rest).toFinset := by
            ext a
            simp only [Finset.mem_union, List.mem_toFinset, List.mem_append,
              List.mem_singleton, List.mem_cons]
            tauto
          rw [resetLoop_new N t h f b rest hosts hlt htle hmem]
          exact ih N (hosts ++ [h]) hnd₂
            (fun e he => hresp e (List.mem_cons_of_mem _ he))
            (by rw [hset₂]; exact hfew) hex'

/-! ## The timeout error is never raised while every iteration starts within
the budget -/

theorem requestLoop_no_early :
    ∀ (events : List (Nat × NetEvent)) (N : Int) (st : CollectState),
      (∀ e ∈ events, e.1 ≤ allReqTimeout) →
      requestOtherProfileLoop N events st ≠ some (.error .timeout) := by
  intro events
  induction events with
  | nil =>
    intro N st _
    by_cases hlt : (st.seenHosts.length : Int) < N
    · rw [requestOtherProfileLoop.eq_def]
      simp [hlt]
    · rw [requestLoop_done N [] st hlt]
      simp
  | cons e rest ih =>
    intro N st hall
    obtain ⟨t, ev⟩ := e
    have htle : t ≤ allReqTimeout := hall (t, ev) (by simp)
    by_cases hlt : (st.seenHosts.length : Int) < N
    · cases ev with
      | failure m =>
        rw [requestLoop_fail N t m rest st hlt htle]
        simp
      | response h f b =>
        by_cases hmem : h ∈ st.seenHosts
        · rw [requestLoop_dup N t h f b rest st hlt htle hmem]
          exact ih N st (fun e he => hall e (List.mem_cons_of_mem _ he))
        · by_cases hf : f = ""
          · rw [hf, requestLoop_write_fail N t h b rest st hlt htle hmem]
            simp
          · rw [requestLoop_new N t h f b rest st hlt htle hmem hf]
            exact ih N _ (fun e he => hall e (List.mem_cons_of_mem _ he))
    · rw [requestLoop_done N _ st hlt]
      simp

theorem resetLoop_no_early :
    ∀ (events : List (Nat × NetEvent)) (N : Int) (hosts : List String),
      (∀ e ∈ events, e.1 ≤ allReqTimeout) →
      resetOtherProfileLoop N events hosts ≠ some (.error .timeout) := by
  intro events
  induction events with
  | nil =>
    intro N hosts _
    by_cases hlt : (hosts.length : Int) < N
    · rw [resetOtherProfileLoop.eq_def]
      simp [hlt]
    · rw [resetLoop_done N [] hosts hlt]
      simp
  | cons e rest ih =>
    intro N hosts hall
    obtain ⟨t, ev⟩ := e
    have htle : t ≤ allReqTimeout := hall (t, ev) (by simp)
    by_cases hlt : (hosts.length : Int) < N
    · cases ev with
      | failure m =>
        rw [resetLoop_fail N t m rest hosts hlt htle]
        simp
      | response h f b =>
        by_cases hmem : h ∈ hosts
        · rw [resetLoop_dup N t h f b rest hosts hlt htle hmem]
          exact ih N hosts (fun e he => hall e (List.mem_cons_of_mem _ he))
        · rw [resetLoop_new N t h f b rest hosts hlt htle hmem]
          exact ih N _ (fun e he => hall e (List.mem_cons_of_mem _ he))
    · rw [resetLoop_done N _ hosts hlt]
      simp

/-- C3: if fewer than `N` distinct identities (the local one included) can
ever be observed from the entry URL, both the collector and the broadcaster
fail with the timeout error — a constructor distinct from transport errors —
as soon as an iteration starts past the 15-second overall budget (the budget
is checked once per iteration), and the timeout is never raised while every
iteration starts within the budget. -/
theorem starvation_times_out (N : Int) (localId : String)
    (scratch0 : List Subdir) (events : List (Nat × NetEvent))
    (hresp : ∀ e ∈ events, e.2.isResponse = true)
    (hfn : ∀ e ∈ events, e.2.fnameOk = true)
    (hfew : ((insert localId (eventHosts events).toFinset).card : Int) < N)
    (hlate : ∃ e ∈ events, allReqTimeout < e.1) :
    requestOtherProfile N localId scratch0 events = some (.error .timeout) ∧
    resetOtherProfile N localId events = some (.error .timeout) ∧
    (∀ (events' : List (Nat × NetEvent)) (st : CollectState)
        (hosts : List String),
      (∀ e ∈ events', e.1 ≤ allReqTimeout) →
      requestOtherProfileLoop N events' st ≠ some (.error .timeout) ∧
      resetOtherProfileLoop N events' hosts ≠ some (.error .timeout)) ∧
    (∀ msg, (CovError.timeout : CovError) ≠ .transport msg) := by
  have hseed : ([localId] : List String).toFinset ∪
      (eventHosts events).toFinset = insert localId (eventHosts events).toFinset := by
    rw [List.toFinset_cons, List.toFinset_nil, insert_emptyc_eq,
      ← Finset.insert_eq]
  refine ⟨?_, ?_,
    fun evs st hosts hall =>
      ⟨requestLoop_no_early evs N st hall, resetLoop_no_early evs N hosts hall⟩,
    fun msg hmsg => by cases hmsg⟩
  · exact requestLoop_starve events N ⟨[localId], scratch0⟩ (by simp) hresp hfn
      (by rw [show (⟨[localId], scratch0⟩ : CollectState).seenHosts = [localId]
            from rfl, hseed]
          exact hfew) hlate
  · exact resetLoop_starve events N [localId] (by simp) hresp
      (by rw [hseed]; exact hfew) hlate

/-- Concrete instantiation of `starvation_times_out`: two pods expected but
only the local identity ever answers; the second iteration starts after the
budget. -/
theorem starvation_times_out_witness :
    (∀ e ∈ ([(1000, .response "a" "f" []), (16000000000, .response "a" "f" [])] :
        List (Nat × NetEvent)), e.2.isResponse = true) ∧
    (∀ e ∈ ([(1000, .response "a" "f" []), (16000000000, .response "a" "f" [])] :
        List (Nat × NetEvent)), e.2.fnameOk = true) ∧
    ((insert "a" (eventHosts [(1000, .response "a" "f" []),
        (16000000000, .response "a" "f" [])]).toFinset).card : Int) < 2 ∧
    (∃ e ∈ ([(1000, .response "a" "f" []), (16000000000, .response "a" "f" [])] :
        List (Nat × NetEvent)), allReqTimeout < e.1) ∧
    requestOtherProfile 2 "a" []
        [(1000, .response "a" "f" []), (16000000000, .response "a" "f" [])] =
      some (.error .timeout) ∧
    resetOtherProfile 2 "a"
        [(1000, .response "a" "f" []), (16000000000, .response "a" "f" [])] =
      some (.error .timeout) :=
  ⟨by decide, by decide, by decide, by decide,
   (starvation_times_out 2 "a" []
       [(1000, .response "a" "f" []), (16000000000, .response "a" "f" [])]
       (by decide) (by decide) (by decide) (by decide)).1,
   (starvation_times_out 2 "a" []
       [(1000, .response "a" "f" []), (16000000000, .response "a" "f" [])]
       (by decide) (by decide) (by decide) (by decide)).2.1⟩

end Coverage
